import Mathlib

/-!
Verification of the VectorTools core of deal.II against its specification.

The repository ships the header include/deal.II/numerics/vector_tools.h,
which declares and documents the interpolation / projection / boundary
constraint / error computation operations of namespace VectorTools, and
contains one piece of inline code: the specialization
Patterns::Tools::Convert<VectorTools::NormType> (string round trips for the
NormType enumeration).  The template implementations themselves are not part
of the repository, so every operation other than the NormType string
conversion is modelled below from the specification and from the contracts
stated in the header documentation; each such definition carries a doc
comment starting with "Modelled from the spec:".
-/

namespace VectorTools

/-- The NormType enumeration, embedded from
src/include/deal.II/numerics/vector_tools.h lines 361-584.  The order of the
constructors is the order of the enumerators in the C++ source. -/
inductive NormType where
  | mean
  | L1_norm
  | L2_norm
  | Lp_norm
  | Linfty_norm
  | H1_seminorm
  | Hdiv_seminorm
  | H1_norm
  | W1p_seminorm
  | W1p_norm
  | W1infty_seminorm
  | W1infty_norm
deriving DecidableEq, Repr

end VectorTools

namespace Patterns

namespace Tools

namespace ConvertNormType

/-- The Patterns::Selection built by
Patterns::Tools::Convert<VectorTools::NormType>::to_pattern()
(vector_tools.h lines 3329-3337): the twelve admissible strings, in the
order in which they appear in the selection pattern. -/
def to_pattern : List String :=
  ["mean", "L1_norm", "L2_norm", "Lp_norm",
   "Linfty_norm", "H1_seminorm", "Hdiv_seminorm",
   "H1_norm", "W1p_seminorm", "W1p_norm",
   "W1infty_seminorm", "W1infty_norm"]

/-- Patterns::Selection::match on the pattern of to_pattern: a string
matches when it is one of the listed alternatives. -/
def selectionMatch (pattern : List String) (str : String) : Bool :=
  pattern.contains str

/-- Patterns::Tools::Convert<VectorTools::NormType>::to_string
(vector_tools.h lines 3344-3380): the if-chain mapping each enumerator to
its name, in source order (W1p_norm is tested last, after W1infty_norm,
exactly as in the source).  The chain covers every enumerator, so the
trailing AssertThrow(false) branch of the source is unreachable and the
function is total. -/
def to_string : VectorTools.NormType → String
  | .mean => "mean"
  | .L1_norm => "L1_norm"
  | .L2_norm => "L2_norm"
  | .Lp_norm => "Lp_norm"
  | .Linfty_norm => "Linfty_norm"
  | .H1_seminorm => "H1_seminorm"
  | .Hdiv_seminorm => "Hdiv_seminorm"
  | .H1_norm => "H1_norm"
  | .W1p_seminorm => "W1p_seminorm"
  | .W1infty_seminorm => "W1infty_seminorm"
  | .W1infty_norm => "W1infty_norm"
  | .W1p_norm => "W1p_norm"

/-- Patterns::Tools::Convert<VectorTools::NormType>::to_value
(vector_tools.h lines 3386-3426).  The source first checks
AssertThrow(p->match(str), ...) against the pattern and then runs an
if-chain over the twelve names (again with W1p_norm tested last); a failed
AssertThrow is a thrown exception, modelled as an error result. -/
def to_value (str : String) : Except String VectorTools.NormType :=
  if selectionMatch to_pattern str = false then
    Except.error "String cannot be converted to VectorTools::NormType"
  else if str = "mean" then Except.ok .mean
  else if str = "L1_norm" then Except.ok .L1_norm
  else if str = "L2_norm" then Except.ok .L2_norm
  else if str = "Lp_norm" then Except.ok .Lp_norm
  else if str = "Linfty_norm" then Except.ok .Linfty_norm
  else if str = "H1_seminorm" then Except.ok .H1_seminorm
  else if str = "Hdiv_seminorm" then Except.ok .Hdiv_seminorm
  else if str = "H1_norm" then Except.ok .H1_norm
  else if str = "W1p_seminorm" then Except.ok .W1p_seminorm
  else if str = "W1infty_seminorm" then Except.ok .W1infty_seminorm
  else if str = "W1infty_norm" then Except.ok .W1infty_norm
  else if str = "W1p_norm" then Except.ok .W1p_norm
  else Except.error "Did not recognize a norm type."

end ConvertNormType

end Tools

end Patterns

/-- C9: NormType string round trip.  For every value s of the NormType
enumeration, to_value (to_string s) succeeds and returns s again, and the
string to_string s is one of the twelve names accepted by the selection
pattern returned by to_pattern. -/
theorem normType_string_roundtrip (s : VectorTools.NormType) :
    Patterns.Tools.ConvertNormType.to_value
        (Patterns.Tools.ConvertNormType.to_string s) = Except.ok s ∧
      Patterns.Tools.ConvertNormType.selectionMatch
        Patterns.Tools.ConvertNormType.to_pattern
        (Patterns.Tools.ConvertNormType.to_string s) = true := by
  cases s <;> exact ⟨rfl, rfl⟩

namespace VectorTools

/-- The global aggregation category of a NormType, as grouped by the
enumerator documentation (vector_tools.h lines 361-584) and spec section 4.4:
plain sum (mean, L1_norm), root of sum of squares (L2_norm, H1_seminorm,
Hdiv_seminorm, H1_norm), p-th root of sum of p-th powers (Lp_norm,
W1p_seminorm, W1p_norm), maximum (Linfty_norm, W1infty_seminorm), and no
defined aggregation for W1infty_norm. -/
inductive Agg where
  | plain_sum
  | sum_of_squares
  | sum_of_powers
  | maximum
  | undefined
deriving DecidableEq

/-- Assignment of each NormType to its aggregation category, following the
per-enumerator formulas documented in vector_tools.h lines 361-584. -/
def aggregation : NormType → Agg
  | .mean => .plain_sum
  | .L1_norm => .plain_sum
  | .L2_norm => .sum_of_squares
  | .H1_seminorm => .sum_of_squares
  | .Hdiv_seminorm => .sum_of_squares
  | .H1_norm => .sum_of_squares
  | .Lp_norm => .sum_of_powers
  | .W1p_seminorm => .sum_of_powers
  | .W1p_norm => .sum_of_powers
  | .Linfty_norm => .maximum
  | .W1infty_seminorm => .maximum
  | .W1infty_norm => .undefined

/-- A per-cell error entry of the cellwise_error vector handed to
compute_global_error: the flag records whether the corresponding active cell
is locally owned (entries of non-owned cells are skipped by the reduction),
the rational number is the per-cell error value E_K. -/
abbrev CellwiseError := List (Bool × ℚ)

/-- The error values of the locally owned cells, in traversal order. -/
def owned_errors (v : CellwiseError) : List ℚ :=
  (v.filter (fun c => c.1)).map (fun c => c.2)

/-- Modelled from the spec: the accumulation loop of compute_global_error
(declared at vector_tools.h lines 2597-2602; the implementation is not under
src).  Spec section 4.4: the rule is "applied only over owned cells"; one
pass over the cellwise vector accumulates the running sum (of values, of
squares, or of p-th powers) or the running maximum, skipping entries of
cells that are not locally owned. -/
def accumulate (a : Agg) (p : ℕ) : CellwiseError → ℚ
  | [] => 0
  | c :: rest =>
      let acc := accumulate a p rest
      if c.1 then
        match a with
        | .plain_sum => c.2 + acc
        | .sum_of_squares => c.2 ^ 2 + acc
        | .sum_of_powers => c.2 ^ p + acc
        | .maximum => max c.2 acc
        | .undefined => acc
      else acc

/-- Modelled from the spec: VectorTools::compute_global_error (declared at
vector_tools.h lines 2597-2602; the implementation is not under src).
Spec section 4.4 and the NormType documentation: aggregate the per-cell
errors of the owned cells with the norm-specific rule, then apply the final
root where the rule asks for one; for W1infty_norm "The global norm is not
implemented in compute_global_error()" (vector_tools.h lines 573-575), a
fatal AssertThrow, modelled as an error result.  Real numbers idealize the
C++ double arithmetic. -/
noncomputable def compute_global_error (norm : NormType)
    (cellwise_error : CellwiseError) (p : ℕ) : Except String ℝ :=
  match aggregation norm with
  | .plain_sum => Except.ok ((accumulate .plain_sum p cellwise_error : ℚ) : ℝ)
  | .sum_of_squares =>
      Except.ok (Real.sqrt ((accumulate .sum_of_squares p cellwise_error : ℚ) : ℝ))
  | .sum_of_powers =>
      Except.ok (((accumulate .sum_of_powers p cellwise_error : ℚ) : ℝ) ^ ((p : ℝ))⁻¹)
  | .maximum => Except.ok ((accumulate .maximum p cellwise_error : ℚ) : ℝ)
  | .undefined =>
      Except.error "The global W1infty norm is not implemented in compute_global_error"

theorem accumulate_plain_sum (p : ℕ) (v : CellwiseError) :
    accumulate .plain_sum p v = (owned_errors v).sum := by
  induction v with
  | nil => rfl
  | cons c rest ih =>
      rcases c with ⟨own, e⟩
      cases own <;> simp [accumulate, owned_errors, List.filter, ih]

theorem accumulate_sum_of_squares (p : ℕ) (v : CellwiseError) :
    accumulate .sum_of_squares p v = ((owned_errors v).map (fun e => e ^ 2)).sum := by
  induction v with
  | nil => rfl
  | cons c rest ih =>
      rcases c with ⟨own, e⟩
      cases own <;> simp [accumulate, owned_errors, List.filter, ih]

theorem accumulate_sum_of_powers (p : ℕ) (v : CellwiseError) :
    accumulate .sum_of_powers p v = ((owned_errors v).map (fun e => e ^ p)).sum := by
  induction v with
  | nil => rfl
  | cons c rest ih =>
      rcases c with ⟨own, e⟩
      cases own <;> simp [accumulate, owned_errors, List.filter, ih]

theorem accumulate_maximum (p : ℕ) (v : CellwiseError) :
    accumulate .maximum p v = (owned_errors v).foldr max 0 := by
  induction v with
  | nil => rfl
  | cons c rest ih =>
      rcases c with ⟨own, e⟩
      cases own <;> simp [accumulate, owned_errors, List.filter, ih]

/-- C3: compute_global_error has no defined aggregation for W1infty_norm.
For every per-cell error vector and exponent, calling it with
norm = W1infty_norm fails with the fatal precondition error, never returning
a value, while the two summand norms Linfty_norm and W1infty_seminorm both
aggregate successfully (so a caller can aggregate them separately and add
the results). -/
theorem compute_global_error_w1infty_undefined (v : CellwiseError) (p : ℕ) :
    compute_global_error .W1infty_norm v p =
        Except.error "The global W1infty norm is not implemented in compute_global_error" ∧
      (∀ r : ℝ, compute_global_error .W1infty_norm v p ≠ Except.ok r) ∧
      (∃ x : ℝ, compute_global_error .Linfty_norm v p = Except.ok x) ∧
      (∃ y : ℝ, compute_global_error .W1infty_seminorm v p = Except.ok y) := by
  refine ⟨rfl, ?_, ⟨_, rfl⟩, ⟨_, rfl⟩⟩
  intro r h
  exact Except.noConfusion h

/-- C4: for every per-cell error vector and every NormType whose aggregation
is defined, compute_global_error applies the norm-specific rule over the
owned cells: plain sum for mean and L1_norm; square root of the sum of
squares for L2_norm, H1_seminorm, Hdiv_seminorm and H1_norm; p-th root of
the sum of p-th powers (with the caller's exponent p) for Lp_norm,
W1p_seminorm and W1p_norm; and maximum over cells for Linfty_norm and
W1infty_seminorm. -/
theorem compute_global_error_aggregation_rules (v : CellwiseError) (p : ℕ) :
    (compute_global_error .mean v p = Except.ok (((owned_errors v).sum : ℚ) : ℝ)) ∧
      (compute_global_error .L1_norm v p = Except.ok (((owned_errors v).sum : ℚ) : ℝ)) ∧
      (compute_global_error .L2_norm v p =
        Except.ok (Real.sqrt (((((owned_errors v).map (fun e => e ^ 2)).sum : ℚ) : ℝ)))) ∧
      (compute_global_error .H1_seminorm v p =
        Except.ok (Real.sqrt (((((owned_errors v).map (fun e => e ^ 2)).sum : ℚ) : ℝ)))) ∧
      (compute_global_error .Hdiv_seminorm v p =
        Except.ok (Real.sqrt (((((owned_errors v).map (fun e => e ^ 2)).sum : ℚ) : ℝ)))) ∧
      (compute_global_error .H1_norm v p =
        Except.ok (Real.sqrt (((((owned_errors v).map (fun e => e ^ 2)).sum : ℚ) : ℝ)))) ∧
      (compute_global_error .Lp_norm v p =
        Except.ok (((((owned_errors v).map (fun e => e ^ p)).sum : ℚ) : ℝ) ^ ((p : ℝ))⁻¹)) ∧
      (compute_global_error .W1p_seminorm v p =
        Except.ok (((((owned_errors v).map (fun e => e ^ p)).sum : ℚ) : ℝ) ^ ((p : ℝ))⁻¹)) ∧
      (compute_global_error .W1p_norm v p =
        Except.ok (((((owned_errors v).map (fun e => e ^ p)).sum : ℚ) : ℝ) ^ ((p : ℝ))⁻¹)) ∧
      (compute_global_error .Linfty_norm v p =
        Except.ok ((((owned_errors v).foldr max 0 : ℚ) : ℝ))) ∧
      (compute_global_error .W1infty_seminorm v p =
        Except.ok ((((owned_errors v).foldr max 0 : ℚ) : ℝ))) := by
  refine ⟨?_, ?_, ?_, ?_, ?_, ?_, ?_, ?_, ?_, ?_, ?_⟩ <;>
    simp [compute_global_error, aggregation, accumulate_plain_sum,
      accumulate_sum_of_squares, accumulate_sum_of_powers, accumulate_maximum]

/-- Modelled from the spec: the data a call to VectorTools::project works
with (the function is only declared at vector_tools.h lines 881-893; the
implementation is not under src).  The mesh geometry, the mass matrix and
the conjugate gradient solve are abstracted: isBoundary marks the boundary
DoF indices; solveInterior is the interior mass-system solve under given
fixed boundary values, returning a coefficient vector that is only consulted
on interior DoFs; boundaryProjection is the result of the face-restricted
boundary mass solve (spec section 4.3 b); solveFree is the unconstrained
global mass solve. -/
structure ProjectionProblem where
  isBoundary : ℕ → Bool
  solveInterior : (ℕ → ℚ) → (ℕ → ℚ)
  boundaryProjection : ℕ → ℚ
  solveFree : ℕ → ℚ

/-- Modelled from the spec: VectorTools::project (vector_tools.h lines
881-893, flag semantics from lines 138-167).  With enforce_zero_boundary
set, boundary DoFs are constrained to zero and the interior system is solved
under those constraints; "the project_to_boundary_first flag is ignored if
the enforce_zero_boundary flag is set" (lines 160-167), so that flag is not
consulted on this branch.  Otherwise, with project_to_boundary_first set,
the boundary DoF values are first obtained from the boundary projection and
held fixed while the interior is solved; with both flags unset the plain
unconstrained mass system is solved. -/
def project (pb : ProjectionProblem)
    (enforce_zero_boundary project_to_boundary_first : Bool) : ℕ → ℚ :=
  if enforce_zero_boundary then
    fun i => if pb.isBoundary i then 0 else pb.solveInterior (fun _ => 0) i
  else if project_to_boundary_first then
    fun i =>
      if pb.isBoundary i then pb.boundaryProjection i
      else pb.solveInterior pb.boundaryProjection i
  else pb.solveFree

/-- C5: with enforce_zero_boundary = true, project returns the same
coefficient vector whether project_to_boundary_first is true or false (the
flag is ignored), and every boundary DoF of the result is zero. -/
theorem project_enforce_zero_boundary (pb : ProjectionProblem)
    (b1 b2 : Bool) (i : ℕ) (h : pb.isBoundary i = true) :
    project pb true b1 = project pb true b2 ∧
      project pb true b1 i = 0 := by
  constructor
  · rfl
  · simp [project, h]

/-- Witness for C5 at a concrete projection problem and boundary DoF. -/
theorem project_enforce_zero_boundary_witness :
    (fun i => decide (i = 0)) 0 = true ∧
      (project ⟨fun i => decide (i = 0), fun bv i => bv i + 1, fun _ => 7, fun _ => 9⟩
          true true =
        project ⟨fun i => decide (i = 0), fun bv i => bv i + 1, fun _ => 7, fun _ => 9⟩
          true false) ∧
      project ⟨fun i => decide (i = 0), fun bv i => bv i + 1, fun _ => 7, fun _ => 9⟩
          true true 0 = 0 := by
  refine ⟨by decide, ?_, ?_⟩
  · exact (project_enforce_zero_boundary
      ⟨fun i => decide (i = 0), fun bv i => bv i + 1, fun _ => 7, fun _ => 9⟩
      true false 0 (by decide)).1
  · exact (project_enforce_zero_boundary
      ⟨fun i => decide (i = 0), fun bv i => bv i + 1, fun _ => 7, fun _ => 9⟩
      true false 0 (by decide)).2

/-- An AffineConstraints container restricted to what the Dirichlet boundary
value calls produce: an association list from constrained DoF index to the
inhomogeneity of the constraint, in insertion order. -/
abbrev Constraints := List (ℕ × ℚ)

/-- AffineConstraints::is_constrained: whether a DoF already has an entry. -/
def isConstrained (cs : Constraints) (d : ℕ) : Bool :=
  cs.any (fun e => e.1 == d)

/-- The inhomogeneity stored for a constrained DoF (none if unconstrained). -/
def acValue (cs : Constraints) (d : ℕ) : Option ℚ :=
  (cs.find? (fun e => e.1 == d)).map (fun e => e.2)

/-- Modelled from the spec: the merge step of the AffineConstraints-based
boundary value builders (vector_tools.h lines 1186-1191 and 1446-1451: "If
this routine encounters a DoF that already is constrained ... the old
setting of the constraint ... is kept and nothing happens").  Each computed
(DoF, value) pair is added only if the DoF is not yet constrained. -/
def mergeKeepExisting (newValues : List (ℕ × ℚ)) (constraints : Constraints) :
    Constraints :=
  newValues.foldl
    (fun cs e => if isConstrained cs e.1 then cs else cs ++ [e]) constraints

/-- std::map<global_dof_index, number> used by the map-based boundary value
builders; entries are keyed by DoF index, mapSet is operator[] assignment
(replace the value if the key exists, insert otherwise). -/
def mapSet : List (ℕ × ℚ) → ℕ → ℚ → List (ℕ × ℚ)
  | [], d, v => [(d, v)]
  | e :: rest, d, v =>
      if e.1 = d then (d, v) :: rest else e :: mapSet rest d v

/-- Lookup in the std::map model. -/
def mapLookup (m : List (ℕ × ℚ)) (d : ℕ) : Option ℚ :=
  (m.find? (fun e => e.1 == d)).map (fun e => e.2)

/-- Modelled from the spec: the merge step of the std::map-based boundary
value builders (vector_tools.h lines 1044-1048 and 1370-1377: "if its index
already exists in boundary_values then its boundary value will be
overwritten, otherwise a new entry ... will be inserted").  Each computed
(DoF, value) pair is written with map assignment, overwriting any entry the
DoF already has. -/
def mergeOverwrite (newValues : List (ℕ × ℚ)) (boundary_values : List (ℕ × ℚ)) :
    List (ℕ × ℚ) :=
  newValues.foldl (fun m e => mapSet m e.1 e.2) boundary_values

/-- Modelled from the spec: AffineConstraints-based
interpolate_boundary_values (declared at vector_tools.h lines 1215-1321);
the geometric part (interpolating the boundary functions at the support
points of the boundary DoFs of the tagged faces) is abstracted into the
newValues list of computed (DoF, value) pairs, and the call merges them into
the constraint container, keeping DoFs that are already constrained. -/
def interpolate_boundary_values_into_constraints
    (newValues : List (ℕ × ℚ)) (constraints : Constraints) : Constraints :=
  mergeKeepExisting newValues constraints

/-- Modelled from the spec: AffineConstraints-based project_boundary_values
(declared at vector_tools.h lines 1479-1504); the face-restricted mass solve
producing the boundary DoF values is abstracted into newValues, and the call
merges them keeping already-constrained DoFs (lines 1446-1451). -/
def project_boundary_values_into_constraints
    (newValues : List (ℕ × ℚ)) (constraints : Constraints) : Constraints :=
  mergeKeepExisting newValues constraints

/-- Modelled from the spec: std::map-based interpolate_boundary_values
(declared at vector_tools.h lines 1091-1178); computed (DoF, value) pairs
are written into the map with overwrite semantics (lines 1044-1048). -/
def interpolate_boundary_values_into_map
    (newValues : List (ℕ × ℚ)) (boundary_values : List (ℕ × ℚ)) :
    List (ℕ × ℚ) :=
  mergeOverwrite newValues boundary_values

/-- Modelled from the spec: std::map-based project_boundary_values (declared
at vector_tools.h lines 1388-1439); computed boundary DoF values are written
into the map with overwrite semantics (lines 1370-1377). -/
def project_boundary_values_into_map
    (newValues : List (ℕ × ℚ)) (boundary_values : List (ℕ × ℚ)) :
    List (ℕ × ℚ) :=
  mergeOverwrite newValues boundary_values

theorem isConstrained_append_left (cs l : Constraints) (d : ℕ)
    (h : isConstrained cs d = true) : isConstrained (cs ++ l) d = true := by
  simp only [isConstrained, List.any_append, Bool.or_eq_true]
  exact Or.inl h

theorem acValue_append_left (cs l : Constraints) (d : ℕ)
    (h : isConstrained cs d = true) : acValue (cs ++ l) d = acValue cs d := by
  have hfind : (cs.find? (fun e => e.1 == d)).isSome = true := by
    rw [List.find?_isSome]
    simpa [isConstrained, List.any_eq_true] using h
  rcases Option.isSome_iff_exists.mp hfind with ⟨e, he⟩
  simp [acValue, List.find?_append, he]

theorem mergeKeepExisting_preserves (newValues : List (ℕ × ℚ))
    (cs : Constraints) (d : ℕ) (h : isConstrained cs d = true) :
    acValue (mergeKeepExisting newValues cs) d = acValue cs d := by
  induction newValues generalizing cs with
  | nil => rfl
  | cons e rest ih =>
      simp only [mergeKeepExisting, List.foldl_cons]
      by_cases hc : isConstrained cs e.1 = true
      · simpa [hc] using ih cs h
      · have h1 : acValue (mergeKeepExisting rest (cs ++ [e])) d
            = acValue (cs ++ [e]) d :=
          ih (cs ++ [e]) (isConstrained_append_left cs [e] d h)
      
        simp only [mergeKeepExisting] at h1
        simp only [Bool.not_eq_true] at hc
        simp [hc, h1, acValue_append_left cs [e] d h]

theorem mapLookup_mapSet_self (m : List (ℕ × ℚ)) (d : ℕ) (v : ℚ) :
    mapLookup (mapSet m d v) d = some v := by
  induction m with
  | nil => simp [mapSet, mapLookup]
  | cons e rest ih =>
      by_cases he : e.1 = d
      · simp [mapSet, he, mapLookup]
      · have hbe : (e.1 == d) = false := by
          simpa using he
        simpa [mapSet, he, mapLookup, hbe] using ih

/-- C1 counterexample: the first-writer-wins claim fails as stated for the
std::map-based variants.  Concretely: the map already holds value 5 for DoF
0 before the call; a call that computes value 3 for DoF 0 overwrites the
entry, for interpolate_boundary_values and project_boundary_values alike
(vector_tools.h lines 1044-1048 and 1370-1377 document this overwrite). -/
theorem first_writer_wins_fails_for_map_variants :
    mapLookup [((0 : ℕ), (5 : ℚ))] 0 = some 5 ∧
      interpolate_boundary_values_into_map [((0 : ℕ), (3 : ℚ))]
          [((0 : ℕ), (5 : ℚ))] = [((0 : ℕ), (3 : ℚ))] ∧
      mapLookup (interpolate_boundary_values_into_map [((0 : ℕ), (3 : ℚ))]
          [((0 : ℕ), (5 : ℚ))]) 0 = some 3 ∧
      project_boundary_values_into_map [((0 : ℕ), (3 : ℚ))]
          [((0 : ℕ), (5 : ℚ))] = [((0 : ℕ), (3 : ℚ))] ∧
      some (3 : ℚ) ≠ some (5 : ℚ) := by
  refine ⟨rfl, rfl, rfl, rfl, ?_⟩
  decide

/-- C1 (amended): first-writer-wins holds for the AffineConstraints-based
variants of interpolate_boundary_values and project_boundary_values — a DoF
already constrained in the container before a call keeps its old constraint
untouched — whereas the std::map-based variants overwrite the stored value
of a DoF that is already present (the writes of the call win). -/
theorem boundary_values_merge_semantics (newValues cs : List (ℕ × ℚ))
    (m : List (ℕ × ℚ)) (d j : ℕ) (v : ℚ) (h : isConstrained cs d = true) :
    acValue (interpolate_boundary_values_into_constraints newValues cs) d
        = acValue cs d ∧
      acValue (project_boundary_values_into_constraints newValues cs) d
        = acValue cs d ∧
      mapLookup (interpolate_boundary_values_into_map [(j, v)] m) j = some v ∧
      mapLookup (project_boundary_values_into_map [(j, v)] m) j = some v :=
  ⟨mergeKeepExisting_preserves newValues cs d h,
   mergeKeepExisting_preserves newValues cs d h,
   mapLookup_mapSet_self m j v,
   mapLookup_mapSet_self m j v⟩

/-- Witness for the amended C1 at concrete containers: DoF 0 is constrained
to 5 before the call, the call computes 3 for DoF 0 and 4 for DoF 1; the
AffineConstraints variants keep 5 for DoF 0, and the map variants store the
written value. -/
theorem boundary_values_merge_semantics_witness :
    isConstrained [((0 : ℕ), (5 : ℚ))] 0 = true ∧
      (acValue (interpolate_boundary_values_into_constraints
            [((0 : ℕ), (3 : ℚ)), ((1 : ℕ), (4 : ℚ))] [((0 : ℕ), (5 : ℚ))]) 0
          = acValue [((0 : ℕ), (5 : ℚ))] 0 ∧
        acValue (project_boundary_values_into_constraints
            [((0 : ℕ), (3 : ℚ)), ((1 : ℕ), (4 : ℚ))] [((0 : ℕ), (5 : ℚ))]) 0
          = acValue [((0 : ℕ), (5 : ℚ))] 0 ∧
        mapLookup (interpolate_boundary_values_into_map [((2 : ℕ), (7 : ℚ))]
            [((2 : ℕ), (9 : ℚ))]) 2 = some 7 ∧
        mapLookup (project_boundary_values_into_map [((2 : ℕ), (7 : ℚ))]
            [((2 : ℕ), (9 : ℚ))]) 2 = some 7) :=
  ⟨by decide,
   boundary_values_merge_semantics [((0 : ℕ), (3 : ℚ)), ((1 : ℕ), (4 : ℚ))]
     [((0 : ℕ), (5 : ℚ))] [((2 : ℕ), (9 : ℚ))] 0 2 7 (by decide)⟩

/-- A normal vector in the plane, with rational coordinates (the 2-D case of
the Normal-Direction Bundle of spec section 3). -/
abbrev Vec2 := ℚ × ℚ

/-- Componentwise sum of a list of vectors. -/
def vsum : List Vec2 → Vec2
  | [] => (0, 0)
  | n :: rest => ((n.1 + (vsum rest).1), (n.2 + (vsum rest).2))

/-- Scaling of a vector by a rational. -/
def vscale (a : ℚ) (n : Vec2) : Vec2 := (a * n.1, a * n.2)

/-- A Normal-Direction Bundle at one boundary point: the outward normal
contributed by each adjacent boundary face, tagged with the identity of the
owning cell (spec section 3). -/
abbrev Bundle := List (ℕ × Vec2)

/-- The distinct owning cells appearing in a bundle, in first-seen order. -/
def cellsOf (bundle : Bundle) : List ℕ :=
  (bundle.map (fun e => e.1)).dedup

/-- The distinct normal directions a given cell contributes to a bundle. -/
def normalsFromCell (bundle : Bundle) (c : ℕ) : List Vec2 :=
  ((bundle.filter (fun e => e.1 == c)).map (fun e => e.2)).dedup

/-- The largest number of distinct normal directions any single cell
contributes at this point. -/
def maxContributions (bundle : Bundle) : ℕ :=
  ((cellsOf bundle).map (fun c => (normalsFromCell bundle c).length)).foldr max 0

/-- The arithmetic mean of the per-cell normals, taking from each
contributing cell its (then unique) normal direction. -/
def averagedNormal (bundle : Bundle) : Vec2 :=
  vscale (1 / ((cellsOf bundle).length : ℚ))
    (vsum ((cellsOf bundle).map
      (fun c => ((normalsFromCell bundle c).headD (0, 0)))))

/-- Modelled from the spec: the per-point averaging heuristic of
compute_nonzero_normal_flux_constraints (documented at vector_tools.h lines
1901-1932; the implementation is not under src).  Group the bundle entries
by owning cell; if no cell contributes more than one distinct normal
direction (so differing normals can only come from different cells, deemed a
curved-boundary artifact), emit one constraint against the average of the
per-cell normals; if some cell contributes several distinct directions (a
genuine corner seen from inside one cell), do not average and emit one
independent constraint per distinct direction of the bundle. -/
def constraint_directions (bundle : Bundle) : List Vec2 :=
  if bundle.isEmpty then []
  else if maxContributions bundle ≤ 1 then [averagedNormal bundle]
  else (bundle.map (fun e => e.2)).dedup

/-- Error conditions of the VectorTools calls, following the taxonomy of
spec section 7: the first three are fatal precondition or lookup failures,
pointNotAvailableHere is the distinct catchable locality failure. -/
inductive VTError where
  | wrongElementFamily
  | oneDimensionalFluxConstraints
  | pointNotFound
  | pointNotAvailableHere
deriving DecidableEq, Repr

/-- Whether an error condition is fatal: every condition except the
catchable locality failure pointNotAvailableHere (spec section 7). -/
def isFatal : VTError → Bool
  | .pointNotAvailableHere => false
  | _ => true

/-- Modelled from the spec: VectorTools::compute_nonzero_normal_flux_constraints
(declared at vector_tools.h lines 2023-2032; the implementation is not under
src).  The mesh traversal collecting one Normal-Direction Bundle per
boundary point of the requested boundary ids is abstracted into the bundles
argument; per point the averaging heuristic yields the constrained
directions.  "This function doesn't make much sense in 1d, so it throws an
exception if dim equals one" (lines 1821-1822): a 1-D call fails fatally and
emits no constraints. -/
def compute_nonzero_normal_flux_constraints (dim : ℕ)
    (bundles : List Bundle) : Except VTError (List Vec2) :=
  if dim = 1 then Except.error .oneDimensionalFluxConstraints
  else Except.ok (bundles.foldr (fun b acc => constraint_directions b ++ acc) [])

/-- Modelled from the spec: VectorTools::compute_no_normal_flux_constraints
(vector_tools.h lines 2046-2056), the homogeneous special case; it shares
the algorithm and the dimension precondition of the nonzero variant. -/
def compute_no_normal_flux_constraints (dim : ℕ)
    (bundles : List Bundle) : Except VTError (List Vec2) :=
  compute_nonzero_normal_flux_constraints dim bundles

/-- Modelled from the spec: the tangential-flux complement
VectorTools::compute_nonzero_tangential_flux_constraints (declared further
down the same header); same collection step and the same dimension
precondition, the emitted constraints fix the components along the resolved
directions complement. -/
def compute_nonzero_tangential_flux_constraints (dim : ℕ)
    (bundles : List Bundle) : Except VTError (List Vec2) :=
  compute_nonzero_normal_flux_constraints dim bundles

/-- C2: the averaging rule of the normal-flux constraint builder.  At a
boundary point whose bundle holds two normals contributed by two different
cells, the two are replaced by their arithmetic mean and a single constraint
against the averaged normal is emitted; at a point whose bundle holds two
distinct normals contributed by the same cell, no averaging happens and one
independent constraint per distinct direction is emitted. -/
theorem normal_flux_averaging_rule (c1 c2 c : ℕ) (n1 n2 m1 m2 : Vec2)
    (hc : c1 ≠ c2) (hm : m1 ≠ m2) :
    constraint_directions [(c1, n1), (c2, n2)] =
        [((n1.1 + n2.1) / 2, (n1.2 + n2.2) / 2)] ∧
      constraint_directions [(c, m1), (c, m2)] = [m1, m2] := by
  have hcells : cellsOf [(c1, n1), (c2, n2)] = [c1, c2] := by
    simp only [cellsOf, List.map_cons, List.map_nil]
    rw [List.dedup_cons_of_not_mem (by simp [hc])]
    rw [List.dedup_cons_of_not_mem (by simp), List.dedup_nil]
  have hn1 : normalsFromCell [(c1, n1), (c2, n2)] c1 = [n1] := by
    have h21 : (c2 == c1) = false := by simp [hc.symm]
    simp [normalsFromCell, List.filter, h21]
  have hn2 : normalsFromCell [(c1, n1), (c2, n2)] c2 = [n2] := by
    have h12 : (c1 == c2) = false := by simp [hc]
    simp [normalsFromCell, List.filter, h12]
  have hmax : maxContributions [(c1, n1), (c2, n2)] = 1 := by
    simp [maxContributions, hcells, hn1, hn2]
  have hcellsb : cellsOf [(c, m1), (c, m2)] = [c] := by
    simp only [cellsOf, List.map_cons, List.map_nil]
    rw [List.dedup_cons_of_mem (by simp)]
    rw [List.dedup_cons_of_not_mem (by simp), List.dedup_nil]
  have hnb : normalsFromCell [(c, m1), (c, m2)] c = [m1, m2] := by
    simp only [normalsFromCell, List.filter, beq_self_eq_true, List.map_cons,
      List.map_nil]
    rw [List.dedup_cons_of_not_mem (by simp [hm])]
    rw [List.dedup_cons_of_not_mem (by simp), List.dedup_nil]
  have hmaxb : maxContributions [(c, m1), (c, m2)] = 2 := by
    simp [maxContributions, hcellsb, hnb]
  constructor
  · have hstep : constraint_directions [(c1, n1), (c2, n2)]
        = [averagedNormal [(c1, n1), (c2, n2)]] := by
      simp [constraint_directions, hmax]
    rw [hstep]
    simp [averagedNormal, hcells, hn1, hn2, vsum, vscale]
    constructor <;> ring
  · have hstep : constraint_directions [(c, m1), (c, m2)]
        = (List.map (fun e => e.2) [(c, m1), (c, m2)]).dedup := by
      simp [constraint_directions, hmaxb]
    rw [hstep]
    simp only [List.map_cons, List.map_nil]
    rw [List.dedup_cons_of_not_mem (by simp [hm])]
    rw [List.dedup_cons_of_not_mem (by simp), List.dedup_nil]

/-- Witness for C2 at a concrete reentrant corner configuration: cells 0 and
1 contribute the unit normals (1,0) and (0,1) at one point (averaged to
(1/2, 1/2)); cell 7 contributes both (1,0) and (0,1) at another point (two
independent constraints, no averaging). -/
theorem normal_flux_averaging_rule_witness :
    constraint_directions [((0 : ℕ), ((1 : ℚ), (0 : ℚ))), ((1 : ℕ), ((0 : ℚ), (1 : ℚ)))] =
        [((1 / 2 : ℚ), (1 / 2 : ℚ))] ∧
      constraint_directions [((7 : ℕ), ((1 : ℚ), (0 : ℚ))), ((7 : ℕ), ((0 : ℚ), (1 : ℚ)))] =
        [((1 : ℚ), (0 : ℚ)), ((0 : ℚ), (1 : ℚ))] := by
  have h := normal_flux_averaging_rule 0 1 7 ((1 : ℚ), (0 : ℚ)) ((0 : ℚ), (1 : ℚ))
    ((1 : ℚ), (0 : ℚ)) ((0 : ℚ), (1 : ℚ)) (by decide) (by decide)
  refine ⟨?_, h.2⟩
  rw [h.1]
  norm_num

/-- C7: the flux-constraint builders are defined only for dim at least two.
A call with dim equal to one fails with a fatal error and emits no
constraints — for compute_nonzero_normal_flux_constraints and for its
homogeneous and tangential variants alike — while for dim at least two the
call succeeds. -/
theorem flux_constraints_dimension_precondition (bundles : List Bundle)
    (d : ℕ) (hd : 2 ≤ d) :
    compute_nonzero_normal_flux_constraints 1 bundles
        = Except.error .oneDimensionalFluxConstraints ∧
      compute_no_normal_flux_constraints 1 bundles
        = Except.error .oneDimensionalFluxConstraints ∧
      compute_nonzero_tangential_flux_constraints 1 bundles
        = Except.error .oneDimensionalFluxConstraints ∧
      (∀ out, compute_nonzero_normal_flux_constraints 1 bundles ≠ Except.ok out) ∧
      (∃ out, compute_nonzero_normal_flux_constraints d bundles = Except.ok out) := by
  refine ⟨rfl, rfl, rfl, ?_, ?_⟩
  · intro out h
    exact Except.noConfusion h
  · have hne : d ≠ 1 := by omega
    refine ⟨bundles.foldr (fun b acc => constraint_directions b ++ acc) [], ?_⟩
    simp [compute_nonzero_normal_flux_constraints, hne]

/-- Witness for C7 at a concrete bundle list and dim = 2. -/
theorem flux_constraints_dimension_precondition_witness :
    (2 : ℕ) ≤ 2 ∧
      (compute_nonzero_normal_flux_constraints 1
          [[((0 : ℕ), ((1 : ℚ), (0 : ℚ)))]]
        = Except.error .oneDimensionalFluxConstraints ∧
      compute_no_normal_flux_constraints 1 [[((0 : ℕ), ((1 : ℚ), (0 : ℚ)))]]
        = Except.error .oneDimensionalFluxConstraints ∧
      compute_nonzero_tangential_flux_constraints 1
          [[((0 : ℕ), ((1 : ℚ), (0 : ℚ)))]]
        = Except.error .oneDimensionalFluxConstraints ∧
      (∀ out, compute_nonzero_normal_flux_constraints 1
          [[((0 : ℕ), ((1 : ℚ), (0 : ℚ)))]] ≠ Except.ok out) ∧
      (∃ out, compute_nonzero_normal_flux_constraints 2
          [[((0 : ℕ), ((1 : ℚ), (0 : ℚ)))]] = Except.ok out)) :=
  ⟨by decide,
   flux_constraints_dimension_precondition [[((0 : ℕ), ((1 : ℚ), (0 : ℚ)))]] 2
     (by decide)⟩

/-- The finite element families the boundary projection preconditions talk
about; an FESystem is a list of base families, a plain element a singleton
list (spec sections 4.3 c and d and section 7). -/
inductive FEFamily where
  | lagrange
  | nedelec
  | raviartThomas
  | other
deriving DecidableEq, Repr

/-- A finite element: its list of base element families (one entry for a
plain element, several for an FESystem). -/
structure FiniteElement where
  bases : List FEFamily
deriving DecidableEq, Repr

/-- Whether the element is FE_Nedelec or an FESystem containing FE_Nedelec
elements (the admissible inputs of
project_boundary_values_curl_conforming_l2, vector_tools.h lines 1660-1664). -/
def containsNedelec (fe : FiniteElement) : Bool :=
  fe.bases.any (fun b => b == FEFamily.nedelec)

/-- Whether the element is an FE_RaviartThomas element (the admissible
inputs of project_boundary_values_div_conforming, vector_tools.h lines
1727-1729). -/
def isRaviartThomas (fe : FiniteElement) : Bool :=
  fe.bases == [FEFamily.raviartThomas]

/-- Modelled from the spec: project_boundary_values_curl_conforming_l2
(declared at vector_tools.h lines 1691-1699; the implementation is not under
src).  "This function is explicitly for use with FE_Nedelec elements, or
with FESystem elements which contain FE_Nedelec elements.  It will throw an
exception if called with any other finite element" (lines 1660-1664).  The
two-stage edge/face hierarchical projection itself is abstracted into the
computed constraint list handed in as an argument. -/
def project_boundary_values_curl_conforming_l2 (fe : FiniteElement)
    (computed : Constraints) : Except VTError Constraints :=
  if containsNedelec fe then Except.ok computed
  else Except.error .wrongElementFamily

/-- Modelled from the spec: project_boundary_values_div_conforming (declared
at vector_tools.h lines 1766-1793; the implementation is not under src).
"This function is explicitly written to use with the FE_RaviartThomas
elements.  Thus it throws an exception, if it is called with other finite
elements" (lines 1727-1729).  The normal-trace interpolation itself is
abstracted into the computed constraint list handed in as an argument. -/
def project_boundary_values_div_conforming (fe : FiniteElement)
    (computed : Constraints) : Except VTError Constraints :=
  if isRaviartThomas fe then Except.ok computed
  else Except.error .wrongElementFamily

/-- C6: element-family preconditions of the conforming boundary projections.
For every finite element that is not of Nedelec type (nor an FESystem
containing Nedelec elements), project_boundary_values_curl_conforming_l2
fails with the fatal wrong-element-family error and produces no constraints;
likewise project_boundary_values_div_conforming fails for every element that
is not of Raviart-Thomas type; and the errors raised are fatal ones. -/
theorem conforming_projection_element_preconditions (fe1 fe2 : FiniteElement)
    (computed1 computed2 : Constraints)
    (h1 : containsNedelec fe1 = false) (h2 : isRaviartThomas fe2 = false) :
    project_boundary_values_curl_conforming_l2 fe1 computed1
        = Except.error .wrongElementFamily ∧
      (∀ cs, project_boundary_values_curl_conforming_l2 fe1 computed1
        ≠ Except.ok cs) ∧
      project_boundary_values_div_conforming fe2 computed2
        = Except.error .wrongElementFamily ∧
      (∀ cs, project_boundary_values_div_conforming fe2 computed2
        ≠ Except.ok cs) ∧
      isFatal .wrongElementFamily = true := by
  refine ⟨?_, ?_, ?_, ?_, rfl⟩
  · simp [project_boundary_values_curl_conforming_l2, h1]
  · intro cs h
    rw [project_boundary_values_curl_conforming_l2] at h
    simp [h1] at h
  · simp [project_boundary_values_div_conforming, h2]
  · intro cs h
    rw [project_boundary_values_div_conforming] at h
    simp [h2] at h

/-- Witness for C6: a plain Lagrange element is rejected by the curl
conforming projection and an FESystem of two Lagrange blocks by the div
conforming one. -/
theorem conforming_projection_element_preconditions_witness :
    (containsNedelec ⟨[FEFamily.lagrange]⟩ = false ∧
        isRaviartThomas ⟨[FEFamily.lagrange, FEFamily.lagrange]⟩ = false) ∧
      (project_boundary_values_curl_conforming_l2 ⟨[FEFamily.lagrange]⟩ []
          = Except.error .wrongElementFamily ∧
        (∀ cs, project_boundary_values_curl_conforming_l2 ⟨[FEFamily.lagrange]⟩ []
          ≠ Except.ok cs) ∧
        project_boundary_values_div_conforming
            ⟨[FEFamily.lagrange, FEFamily.lagrange]⟩ []
          = Except.error .wrongElementFamily ∧
        (∀ cs, project_boundary_values_div_conforming
            ⟨[FEFamily.lagrange, FEFamily.lagrange]⟩ []
          ≠ Except.ok cs) ∧
        isFatal .wrongElementFamily = true) :=
  ⟨⟨by decide, by decide⟩,
   conforming_projection_element_preconditions ⟨[FEFamily.lagrange]⟩
     ⟨[FEFamily.lagrange, FEFamily.lagrange]⟩ [] [] (by decide) (by decide)⟩

/-- Modelled from the spec: an active cell as seen by the point evaluation
queries — a one-dimensional geometric extent with rational endpoints, the
locally-owned flag of the current partition, and the restriction of the
finite element field (value and gradient) to the cell, abstracted into
rational-valued functions of the evaluation point. -/
structure MeshCell where
  lo : ℚ
  hi : ℚ
  owned : Bool
  fieldValue : ℚ → ℚ
  fieldGradient : ℚ → ℚ

/-- Whether the evaluation point lies in the cell. -/
def containsPoint (c : MeshCell) (p : ℚ) : Bool :=
  decide (c.lo ≤ p) && decide (p ≤ c.hi)

/-- Modelled from the spec: VectorTools::point_value (declared at
vector_tools.h lines 2684-2690; the implementation is not under src).  Find
the first cell containing the given point and evaluate the finite element
field there; "If the cell in which the point is found is not locally owned,
an exception of type VectorTools::ExcPointNotAvailableHere is thrown"
(lines 2669-2670), the catchable locality failure of the error taxonomy. -/
def point_value (mesh : List MeshCell) (p : ℚ) : Except VTError ℚ :=
  match mesh.find? (fun c => containsPoint c p) with
  | none => Except.error .pointNotFound
  | some c =>
      if c.owned then Except.ok (c.fieldValue p)
      else Except.error .pointNotAvailableHere

/-- Modelled from the spec: VectorTools::point_difference (declared at
vector_tools.h lines 2616-2623): the difference between a reference function
and the finite element field at the point, with the same locality behaviour
as point_value (lines 2613-2614). -/
def point_difference (mesh : List MeshCell) (exact_solution : ℚ → ℚ)
    (p : ℚ) : Except VTError ℚ :=
  match mesh.find? (fun c => containsPoint c p) with
  | none => Except.error .pointNotFound
  | some c =>
      if c.owned then Except.ok (exact_solution p - c.fieldValue p)
      else Except.error .pointNotAvailableHere

/-- Modelled from the spec: VectorTools::point_gradient (declared at
vector_tools.h lines 2945-2953): the gradient of the finite element field at
the point, with the same locality behaviour (lines 2933-2934). -/
def point_gradient (mesh : List MeshCell) (p : ℚ) : Except VTError ℚ :=
  match mesh.find? (fun c => containsPoint c p) with
  | none => Except.error .pointNotFound
  | some c =>
      if c.owned then Except.ok (c.fieldGradient p)
      else Except.error .pointNotAvailableHere

/-- C8: locality failure is distinct and recoverable.  When the cell in
which the evaluation point is found is not locally owned, point_value,
point_difference and point_gradient all fail with exactly the catchable
(non-fatal) error pointNotAvailableHere and return no value; when that cell
is locally owned, no such failure happens and a value is returned. -/
theorem point_queries_locality (mesh : List MeshCell) (exact_solution : ℚ → ℚ)
    (p : ℚ) (c : MeshCell)
    (hfind : mesh.find? (fun c => containsPoint c p) = some c) :
    (c.owned = false →
      point_value mesh p = Except.error .pointNotAvailableHere ∧
        point_difference mesh exact_solution p
          = Except.error .pointNotAvailableHere ∧
        point_gradient mesh p = Except.error .pointNotAvailableHere ∧
        isFatal .pointNotAvailableHere = false ∧
        (∀ v, point_value mesh p ≠ Except.ok v)) ∧
      (c.owned = true →
        point_value mesh p = Except.ok (c.fieldValue p) ∧
          point_difference mesh exact_solution p
            = Except.ok (exact_solution p - c.fieldValue p) ∧
          point_gradient mesh p = Except.ok (c.fieldGradient p)) := by
  constructor
  · intro hown
    refine ⟨?_, ?_, ?_, rfl, ?_⟩
    · simp [point_value, hfind, hown]
    · simp [point_difference, hfind, hown]
    · simp [point_gradient, hfind, hown]
    · intro v h
      rw [point_value, hfind] at h
      simp [hown] at h
  · intro hown
    refine ⟨?_, ?_, ?_⟩
    · simp [point_value, hfind, hown]
    · simp [point_difference, hfind, hown]
    · simp [point_gradient, hfind, hown]

/-- Witness for C8 on a concrete two-cell partition: the cell holding the
point 5 is a ghost cell (not owned), so the three queries raise the
catchable locality failure; the cell holding the point 1 is owned, so they
return values. -/
theorem point_queries_locality_witness :
    ([⟨0, 2, true, fun q => q + 1, fun _ => 1⟩,
        ⟨4, 6, false, fun q => q * q, fun q => 2 * q⟩] : List MeshCell).find?
        (fun c => containsPoint c 5)
      = some ⟨4, 6, false, fun q => q * q, fun q => 2 * q⟩ ∧
      point_value
          [⟨0, 2, true, fun q => q + 1, fun _ => 1⟩,
            ⟨4, 6, false, fun q => q * q, fun q => 2 * q⟩] 5
        = Except.error .pointNotAvailableHere ∧
      point_gradient
          [⟨0, 2, true, fun q => q + 1, fun _ => 1⟩,
            ⟨4, 6, false, fun q => q * q, fun q => 2 * q⟩] 5
        = Except.error .pointNotAvailableHere ∧
      point_value
          [⟨0, 2, true, fun q => q + 1, fun _ => 1⟩,
            ⟨4, 6, false, fun q => q * q, fun q => 2 * q⟩] 1
        = Except.ok 2 := by
  have hfind5 : ([⟨0, 2, true, fun q => q + 1, fun _ => 1⟩,
      ⟨4, 6, false, fun q => q * q, fun q => 2 * q⟩] : List MeshCell).find?
      (fun c => containsPoint c 5)
      = some ⟨4, 6, false, fun q => q * q, fun q => 2 * q⟩ := by
    simp [List.find?, containsPoint]
    norm_num
  have hfind1 : ([⟨0, 2, true, fun q => q + 1, fun _ => 1⟩,
      ⟨4, 6, false, fun q => q * q, fun q => 2 * q⟩] : List MeshCell).find?
      (fun c => containsPoint c 1)
      = some ⟨0, 2, true, fun q => q + 1, fun _ => 1⟩ := by
    simp [List.find?, containsPoint]
  have h5 := point_queries_locality
    [⟨0, 2, true, fun q => q + 1, fun _ => 1⟩,
      ⟨4, 6, false, fun q => q * q, fun q => 2 * q⟩] (fun q => q) 5
    ⟨4, 6, false, fun q => q * q, fun q => 2 * q⟩ hfind5
  have h1 := point_queries_locality
    [⟨0, 2, true, fun q => q + 1, fun _ => 1⟩,
      ⟨4, 6, false, fun q => q * q, fun q => 2 * q⟩] (fun q => q) 1
    ⟨0, 2, true, fun q => q + 1, fun _ => 1⟩ hfind1
  refine ⟨hfind5, (h5.1 rfl).1, (h5.1 rfl).2.2.1, ?_⟩
  have := (h1.2 rfl).1
  rw [this]
  norm_num

/-- A cell as seen by interpolate_based_on_material_id: its material id and
the global DoF indices supported on it. -/
structure MatCell where
  material : ℕ
  dofs : List ℕ

/-- Whether a material id appears as a key of the function map. -/
def materialListed (function_map : List (ℕ × (ℕ → ℚ))) (m : ℕ) : Bool :=
  function_map.any (fun e => e.1 == m)

/-- Modelled from the spec: VectorTools::interpolate_based_on_material_id
(declared at vector_tools.h lines 710-722; the implementation is not under
src).  The loop over cells looks the material id of each cell up in the
function map; a cell whose material id is not listed leaves dst untouched on
its DoFs (lines 682-687), a listed cell writes the interpolated values of
its function into the DoFs of the cell, later cells overwriting earlier ones
on shared DoFs (lines 689-706).  Evaluating a function at the support point
of a DoF is abstracted into applying the mapped function to the DoF index. -/
def interpolate_based_on_material_id (function_map : List (ℕ × (ℕ → ℚ))) :
    List MatCell → (ℕ → ℚ) → (ℕ → ℚ)
  | [], dst => dst
  | cell :: rest, dst =>
      interpolate_based_on_material_id function_map rest
        (match function_map.find? (fun e => e.1 == cell.material) with
         | none => dst
         | some e => fun d => if cell.dofs.contains d then e.2 d else dst d)

/-- C10: frame property of interpolate_based_on_material_id.  A DoF that
belongs only to cells whose material id does not appear as a key of the
function map (in particular a DoF of no listed cell at all) keeps its
previous value in dst after the call. -/
theorem interpolate_based_on_material_id_frame
    (function_map : List (ℕ × (ℕ → ℚ))) (cells : List MatCell)
    (dst : ℕ → ℚ) (j : ℕ)
    (h : ∀ cell ∈ cells, j ∈ cell.dofs →
      materialListed function_map cell.material = false) :
    interpolate_based_on_material_id function_map cells dst j = dst j := by
  induction cells generalizing dst with
  | nil => rfl
  | cons cell rest ih =>
      have hrest : ∀ c ∈ rest, j ∈ c.dofs →
          materialListed function_map c.material = false :=
        fun c hc => h c (List.mem_cons_of_mem _ hc)
      cases hfind : function_map.find? (fun e => e.1 == cell.material) with
      | none =>
          simp only [interpolate_based_on_material_id, hfind]
          exact ih dst hrest
      | some e =>
          have hsome : (function_map.find? (fun e => e.1 == cell.material)).isSome
              = true := by
            rw [hfind]; rfl
          have hlisted : materialListed function_map cell.material = true := by
            rw [List.find?_isSome] at hsome
            simpa [materialListed, List.any_eq_true] using hsome
          have hnj : j ∉ cell.dofs := by
            intro hj
            have hfalse := h cell (List.mem_cons_self _ _) hj
            rw [hlisted] at hfalse
            exact Bool.noConfusion hfalse
          simp only [interpolate_based_on_material_id, hfind]
          rw [ih _ hrest]
          simp [hnj]

/-- Witness for C10: with the function map listing only material 1, cell 0
(material 1, DoF 0) is interpolated while cell 1 (material 2, DoF 1) is
skipped, so DoF 1 keeps its initial value. -/
theorem interpolate_based_on_material_id_frame_witness :
    (∀ cell ∈ [(⟨1, [0]⟩ : MatCell), ⟨2, [1]⟩], (1 : ℕ) ∈ cell.dofs →
        materialListed [((1 : ℕ), fun _ => (10 : ℚ))] cell.material = false) ∧
      interpolate_based_on_material_id [((1 : ℕ), fun _ => (10 : ℚ))]
          [(⟨1, [0]⟩ : MatCell), ⟨2, [1]⟩] (fun d => (d : ℚ)) 1 = 1 := by
  have hside : ∀ cell ∈ [(⟨1, [0]⟩ : MatCell), ⟨2, [1]⟩], (1 : ℕ) ∈ cell.dofs →
      materialListed [((1 : ℕ), fun _ => (10 : ℚ))] cell.material = false := by
    intro cell hc hj
    simp only [List.mem_cons, List.not_mem_nil, or_false] at hc
    rcases hc with rfl | rfl
    · simp at hj
    · rfl
  refine ⟨hside, ?_⟩
  rw [interpolate_based_on_material_id_frame
    [((1 : ℕ), fun _ => (10 : ℚ))] [(⟨1, [0]⟩ : MatCell), ⟨2, [1]⟩]
    (fun d => (d : ℚ)) 1 hside]
  norm_num

/-- Witness for C3 at a concrete per-cell error vector. -/
theorem compute_global_error_w1infty_undefined_witness :
    compute_global_error .W1infty_norm [(true, 2)] 2 =
      Except.error "The global W1infty norm is not implemented in compute_global_error" :=
  (compute_global_error_w1infty_undefined [(true, 2)] 2).1

/-- Witness for C4 at a concrete per-cell error vector: only the owned cell
(error 3) enters the plain sum of the mean aggregation. -/
theorem compute_global_error_aggregation_rules_witness :
    compute_global_error .mean [(true, 3), (false, 5)] 2 = Except.ok (3 : ℝ) := by
  have h := (compute_global_error_aggregation_rules [(true, 3), (false, 5)] 2).1
  simpa [owned_errors] using h

end VectorTools

/-- Witness for C9 at a concrete enumerator. -/
theorem normType_string_roundtrip_witness :
    Patterns.Tools.ConvertNormType.to_value
        (Patterns.Tools.ConvertNormType.to_string VectorTools.NormType.L2_norm)
      = Except.ok VectorTools.NormType.L2_norm :=
  (normType_string_roundtrip VectorTools.NormType.L2_norm).1
